import Mathlib

/-!
Formal model of the Equinox parametric-insurance contracts:

* `PremiumVault.sol` — an OpenZeppelin ERC4626 vault holding pooled premiums
  (`depositPremium`, `withdrawForPayout`);
* `Oracle.sol` (the hybrid oracle, `src/unnamed/part_001`) — per-protocol safety
  scores with manual updates (`updateScore`) and RISC-Zero-proof-gated updates
  (`updateScoreWithProof`);
* `EquinoxProtocol` / `DeRiskProtocol` (`src/unnamed/part_002`) — the policy
  engine (`buyPolicy`, `claimPayout`, `calculatePremium`, `isClaimable`).

Modelling conventions:

* Addresses, `bytes32` image ids and byte strings are modelled as `Nat` /
  `List Nat`; the zero address is `0`.
* `uint256` arithmetic is modelled on `Nat`.  Solidity 0.8 checked arithmetic
  reverts on under/overflow; every subtraction performed by the contracts is
  either guarded by an explicit require/if in the source or modelled with an
  explicit guard below, so `Nat` truncation is never silently hit on the
  success path.  OpenZeppelin's `Math.mulDiv` used by ERC4626 is full-precision
  (512-bit intermediate), so `Nat` multiplication/division models it exactly.
* A Solidity `revert` rolls the whole transaction back, so every entry point is
  modelled as a function into `Except`: on `.error` the pre-state is kept
  unchanged (the step relation below only steps on `.ok`).
-/

namespace Equinox

/-- Errors raised by `PremiumVault` (custom errors and require strings). -/
inductive VaultError where
  | zeroDeposit
  | depositTooSmall
  | callerNotDeRiskProtocol
  | invalidTo
  | insufficientShares
  | insufficientAssets
  deriving Repr, DecidableEq

/-- State of `PremiumVault`: `totalAssets` is the vault's balance of the
underlying asset (ERC4626 `totalAssets()`), `totalSupply` the ERC20 share
supply, `selfShares` the share balance credited to the vault itself
(`balanceOf(address(this))`), and `equinoxProtocol` the address allowed to call
`withdrawForPayout`. -/
structure VaultState where
  totalAssets : Nat
  totalSupply : Nat
  selfShares : Nat
  equinoxProtocol : Nat
  deriving Repr, DecidableEq

/-- OpenZeppelin ERC4626 `convertToShares` (and `previewDeposit`, which is the
same function): `assets.mulDiv(totalSupply() + 1, totalAssets() + 1, Floor)`
with the default `_decimalsOffset() = 0`. -/
def convertToShares (s : VaultState) (assets : Nat) : Nat :=
  assets * (s.totalSupply + 1) / (s.totalAssets + 1)

/-- OpenZeppelin ERC4626 `previewDeposit`, identical to `convertToShares`
(both round down). -/
def previewDeposit (s : VaultState) (assets : Nat) : Nat :=
  convertToShares s assets

/-- OpenZeppelin ERC4626 `previewWithdraw`:
`assets.mulDiv(totalSupply() + 1, totalAssets() + 1, Ceil)`. -/
def previewWithdraw (s : VaultState) (assets : Nat) : Nat :=
  (assets * (s.totalSupply + 1) + s.totalAssets) / (s.totalAssets + 1)

/-- `PremiumVault.depositPremium(amount)`: reverts on zero amount; computes
shares by `convertToShares`; if that is `0` with zero supply, mints 1 share;
otherwise, if it is `0`, recomputes via `previewDeposit` and reverts
`DepositTooSmall` when that recomputation is positive; finally performs
`_deposit(msg.sender, address(this), amount, shares)` (pull `amount` of the
asset in, mint `shares` to the vault itself).  Returns the new state and the
minted share count. -/
def depositPremium (s : VaultState) (amount : Nat) :
    Except VaultError (VaultState × Nat) :=
  if amount = 0 then .error .zeroDeposit
  else
    let shares0 := convertToShares s amount
    if shares0 = 0 ∧ s.totalSupply = 0 then
      .ok ({ s with totalAssets := s.totalAssets + amount,
                    totalSupply := s.totalSupply + 1,
                    selfShares := s.selfShares + 1 }, 1)
    else if shares0 = 0 then
      let shares1 := previewDeposit s amount
      if shares1 > 0 then .error .depositTooSmall
      else
        .ok ({ s with totalAssets := s.totalAssets + amount,
                      totalSupply := s.totalSupply + shares1,
                      selfShares := s.selfShares + shares1 }, shares1)
    else
      .ok ({ s with totalAssets := s.totalAssets + amount,
                    totalSupply := s.totalSupply + shares0,
                    selfShares := s.selfShares + shares0 }, shares0)

/-- `PremiumVault.withdrawForPayout(to, amount)`: only callable by the bound
`equinoxProtocol`; reverts on zero recipient or zero amount; burns
`max(previewWithdraw(amount), 1)` shares from the vault's own balance and
transfers `amount` of the asset to `to`.  The ERC20 `_burn` reverts when the
vault's share balance is insufficient, and the asset transfer reverts when the
vault's asset balance is insufficient; both are modelled as explicit guards. -/
def withdrawForPayout (s : VaultState) (caller toAddr amount : Nat) :
    Except VaultError VaultState :=
  if caller ≠ s.equinoxProtocol then .error .callerNotDeRiskProtocol
  else if toAddr = 0 then .error .invalidTo
  else if amount = 0 then .error .zeroDeposit
  else
    let shares0 := previewWithdraw s amount
    let shares := if shares0 = 0 then 1 else shares0
    if s.selfShares < shares then .error .insufficientShares
    else if s.totalAssets < amount then .error .insufficientAssets
    else
      .ok { s with totalAssets := s.totalAssets - amount,
                   totalSupply := s.totalSupply - shares,
                   selfShares := s.selfShares - shares }

/-- Errors raised by `Oracle` (require strings and the ZK-verification revert). -/
inductive OracleError where
  | notOwner
  | invalidProtocolAddress
  | alreadyRegistered
  | scoreAbove100
  | notRegistered
  | invalidVerifier
  | verifierNotConfigured
  | invalidJournalLength
  | imageIdNotSet
  | invalidImageId
  | zkVerificationFailed
  deriving Repr, DecidableEq

/-- `Oracle.ProtocolMetrics`: analytics attached to a protocol by ZK updates.
`totalAssets`/`totalLiabilities` are `uint128`, the last two fields `uint64`. -/
structure ProtocolMetrics where
  totalAssets : Nat
  totalLiabilities : Nat
  lastUpdateTime : Nat
  zkVerificationCount : Nat
  deriving Repr, DecidableEq

/-- State of `Oracle`.  `Ownable`'s `onlyOwner` modifier is modelled by passing
each privileged entry point an `isOwner : Bool` flag ("the caller is the
owner").  `verifierConfigured` models `address(riscZeroVerifier) != address(0)`;
an image id of `0` models the unset `bytes32(0)`.  Mapping defaults are `0`,
`false` and the all-zero metrics record, as in Solidity. -/
structure OracleState where
  safetyScores : Nat → Nat
  isProtocolRegistered : Nat → Bool
  registeredProtocols : List Nat
  verifierConfigured : Bool
  protocolImageIds : Nat → Nat
  protocolMetrics : Nat → ProtocolMetrics

/-- `Oracle.addProtocol(protocol, initialScore)`: owner-only registration with
an initial score capped at 100. -/
def addProtocol (s : OracleState) (isOwner : Bool) (protocol initialScore : Nat) :
    Except OracleError OracleState :=
  if !isOwner then .error .notOwner
  else if protocol = 0 then .error .invalidProtocolAddress
  else if s.isProtocolRegistered protocol then .error .alreadyRegistered
  else if 100 < initialScore then .error .scoreAbove100
  else
    .ok { s with
      isProtocolRegistered := fun p => if p = protocol then true else s.isProtocolRegistered p,
      safetyScores := fun p => if p = protocol then initialScore else s.safetyScores p,
      registeredProtocols := s.registeredProtocols ++ [protocol] }

/-- `Oracle.updateScore(protocol, newScore)`: owner-only manual score update.
Besides overwriting the score it sets `protocolMetrics[protocol].lastUpdateTime`
to `uint64(block.timestamp)`; `time` is the current block timestamp. -/
def updateScore (s : OracleState) (isOwner : Bool) (time protocol newScore : Nat) :
    Except OracleError OracleState :=
  if !isOwner then .error .notOwner
  else if !s.isProtocolRegistered protocol then .error .notRegistered
  else if 100 < newScore then .error .scoreAbove100
  else
    .ok { s with
      safetyScores := fun p => if p = protocol then newScore else s.safetyScores p,
      protocolMetrics := fun p =>
        if p = protocol then { s.protocolMetrics protocol with lastUpdateTime := time % 2 ^ 64 }
        else s.protocolMetrics p }

/-- `Oracle.setVerifier(_verifier)`: owner-only; requires a nonzero verifier
address (`verifier ≠ 0`) and records that a verifier is configured. -/
def setVerifier (s : OracleState) (isOwner : Bool) (verifier : Nat) :
    Except OracleError OracleState :=
  if !isOwner then .error .notOwner
  else if verifier = 0 then .error .invalidVerifier
  else .ok { s with verifierConfigured := true }

/-- `Oracle.setImageId(protocol, imageId)`: owner-only; requires a registered
protocol and a nonzero image id. -/
def setImageId (s : OracleState) (isOwner : Bool) (protocol imageId : Nat) :
    Except OracleError OracleState :=
  if !isOwner then .error .notOwner
  else if !s.isProtocolRegistered protocol then .error .notRegistered
  else if imageId = 0 then .error .invalidImageId
  else .ok { s with protocolImageIds := fun p => if p = protocol then imageId else s.protocolImageIds p }

/-- `Oracle._readUint64LE(data, offset)`: assemble 8 bytes little-endian.
`data[offset + i]` is a byte (`uint8`), modelled as `data.getD (offset+i) 0 % 256`. -/
def readUint64LE (data : List Nat) (offset : Nat) : Nat :=
  (List.range 8).foldl (fun value i => value ||| (data.getD (offset + i) 0 % 256) <<< (i * 8)) 0

/-- `Oracle._readUint128LE(data, offset)`: assemble 16 bytes little-endian. -/
def readUint128LE (data : List Nat) (offset : Nat) : Nat :=
  (List.range 16).foldl (fun value i => value ||| (data.getD (offset + i) 0 % 256) <<< (i * 8)) 0

/-- The external RISC Zero verifier composed with the `sha256` digest step.
The contract calls `riscZeroVerifier.verify(seal, imageId, sha256(journal))`
and treats any revert (with or without a reason string) as failure; since
`sha256` is a fixed deterministic function, quantifying over all boolean
predicates `verify seal imageId journal` is the same as quantifying over all
behaviours of the opaque verifier on the digest. -/
abbrev Verifier := List Nat → Nat → List Nat → Bool

/-- `Oracle.updateScoreWithProof(protocol, journal, seal)`.  Returns the
`Except` outcome paired with a `Bool` recording whether the external verifier
was invoked (`true` exactly when execution reached the `try verify` call).
On success: decode the journal fields little-endian, convert basis points to
the 0–100 scale capping at 100, store score and metrics and increment the
verification counter (the `uint64` counter increment cannot overflow before
`2^64` successful updates, so it is modelled unchecked). -/
def updateScoreWithProof (verify : Verifier) (s : OracleState)
    (protocol : Nat) (journal sealBytes : List Nat) :
    Except OracleError OracleState × Bool :=
  if !s.isProtocolRegistered protocol then (.error .notRegistered, false)
  else if !s.verifierConfigured then (.error .verifierNotConfigured, false)
  else if journal.length ≠ 48 then (.error .invalidJournalLength, false)
  else
    let imageId := s.protocolImageIds protocol
    if imageId = 0 then (.error .imageIdNotSet, false)
    else if !verify sealBytes imageId journal then (.error .zkVerificationFailed, true)
    else
      let safetyScoreBP := readUint64LE journal 0
      let assets := readUint128LE journal 8
      let liabilities := readUint128LE journal 24
      let timestamp := readUint64LE journal 40
      let scoreOutOf100 := safetyScoreBP * 100 / 10000
      let score := if 100 < scoreOutOf100 then 100 else scoreOutOf100
      (.ok { s with
        safetyScores := fun p => if p = protocol then score else s.safetyScores p,
        protocolMetrics := fun p =>
          if p = protocol then
            { totalAssets := assets, totalLiabilities := liabilities,
              lastUpdateTime := timestamp,
              zkVerificationCount := (s.protocolMetrics protocol).zkVerificationCount + 1 }
          else s.protocolMetrics p }, true)

/-- `Oracle.getScore(protocol)`: requires registration. -/
def getScore (s : OracleState) (protocol : Nat) : Except OracleError Nat :=
  if s.isProtocolRegistered protocol then .ok (s.safetyScores protocol)
  else .error .notRegistered

/-- Errors raised by `EquinoxProtocol`/`DeRiskProtocol`, plus wrapped reverts
bubbling up from the vault or the oracle during a policy-engine transaction. -/
inductive ProtocolError where
  | invalidProtocol
  | invalidStrikeScore
  | invalidDuration
  | invalidPayoutAmount
  | insufficientVaultBalance
  | policyDoesNotExist
  | notPolicyOwner
  | policyExpired
  | policyAlreadyClaimed
  | strikeNotBreached
  | insuredUnderflow
  | vaultCall (e : VaultError)
  | oracleCall (e : OracleError)
  deriving Repr, DecidableEq

/-- `EquinoxProtocol.PolicyData`.  The Solidity mapping default for a missing
policy id is the all-zero record with both flags `false`. -/
structure PolicyData where
  protocol : Nat
  strikeScore : Nat
  expiry : Nat
  payoutAmount : Nat
  holder : Nat
  exists_ : Bool
  claimed : Bool
  deriving Repr, DecidableEq

/-- The all-zero `PolicyData` record returned by the mapping for unset ids. -/
def emptyPolicy : PolicyData :=
  { protocol := 0, strikeScore := 0, expiry := 0, payoutAmount := 0,
    holder := 0, exists_ := false, claimed := false }

/-- State owned by the `EquinoxProtocol` contract: the policy store, the next
policy id, the per-protocol aggregate insured amount, and the ERC1155 claim
token balances (`balanceOf account policyId`). -/
structure EngineState where
  nextPolicyId : Nat
  policies : Nat → PolicyData
  totalInsuredPerProtocol : Nat → Nat
  balanceOf : Nat → Nat → Nat

/-- The address of the deployed `EquinoxProtocol` contract, used as
`msg.sender` when the engine calls `vault.withdrawForPayout`. -/
def engineAddr : Nat := 1

/-- Combined on-chain state relevant to the engine: the oracle, the vault, the
engine and the current block timestamp. -/
structure SystemState where
  oracle : OracleState
  vault : VaultState
  engine : EngineState
  time : Nat

/-- `EquinoxProtocol.MIN_PREMIUM` (1 USDC, 6 decimals). -/
def MIN_PREMIUM : Nat := 1000000

/-- `EquinoxProtocol.calculatePremium(strikeScore, durationInDays, payoutAmount)`:
`payoutAmount * ((100 - strikeScore) * 100) * durationInDays / 1_000_000`,
floored at `MIN_PREMIUM`.  (`buyPolicy` only calls it with
`strikeScore ≤ 100`, where Solidity's checked `100 - strikeScore` agrees with
truncated `Nat` subtraction.) -/
def calculatePremium (strikeScore durationInDays payoutAmount : Nat) : Nat :=
  let riskBasisPoints := (100 - strikeScore) * 100
  let timeMultiplier := durationInDays
  let premium := payoutAmount * riskBasisPoints * timeMultiplier / 1000000
  if premium < MIN_PREMIUM then MIN_PREMIUM else premium

/-- `EquinoxProtocol.buyPolicy(protocol, strikeScore, durationInDays,
payoutAmount)` called by `caller` at block timestamp `s.time`: validates the
request, pulls the premium and forwards it to `vault.depositPremium`,
allocates policy id `nextPolicyId`, stores the policy, bumps the aggregate
insured amount and mints one ERC1155 claim token to the buyer.  Returns the
new system state and the policy id. -/
def buyPolicy (s : SystemState) (caller protocol strikeScore durationInDays payoutAmount : Nat) :
    Except ProtocolError (SystemState × Nat) :=
  if !s.oracle.isProtocolRegistered protocol then .error .invalidProtocol
  else if strikeScore < 1 ∨ 100 < strikeScore then .error .invalidStrikeScore
  else if durationInDays < 1 ∨ 365 < durationInDays then .error .invalidDuration
  else if payoutAmount = 0 then .error .invalidPayoutAmount
  else if s.vault.totalAssets < payoutAmount then .error .insufficientVaultBalance
  else
    let premium := calculatePremium strikeScore durationInDays payoutAmount
    match depositPremium s.vault premium with
    | .error e => .error (.vaultCall e)
    | .ok (vault1, _) =>
      let policyId := s.engine.nextPolicyId
      let expiry := s.time + durationInDays * 86400
      let newPolicy : PolicyData :=
        { protocol := protocol, strikeScore := strikeScore, expiry := expiry,
          payoutAmount := payoutAmount, holder := caller,
          exists_ := true, claimed := false }
      .ok ({ s with
        vault := vault1,
        engine :=
          { nextPolicyId := policyId + 1,
            policies := fun i => if i = policyId then newPolicy else s.engine.policies i,
            totalInsuredPerProtocol := fun p =>
              if p = protocol then s.engine.totalInsuredPerProtocol protocol + payoutAmount
              else s.engine.totalInsuredPerProtocol p,
            balanceOf := fun a i =>
              if a = caller ∧ i = policyId then s.engine.balanceOf a i + 1
              else s.engine.balanceOf a i } }, policyId)

/-- `EquinoxProtocol.claimPayout(policyId)` called by `caller` at block
timestamp `s.time`: checks existence, claim-token ownership, expiry
(`block.timestamp >= expiry` reverts), the claimed flag, and the strict strike
breach `getScore < strikeScore`; then marks the policy claimed, decrements the
aggregate insured amount (Solidity checked subtraction, modelled by the
`insuredUnderflow` guard), burns the caller's claim token and pays out through
`vault.withdrawForPayout`.  The source performs its state writes before the
vault call, but a revert of the vault call undoes them, so success-or-rollback
semantics coincide with this functional presentation. -/
def claimPayout (s : SystemState) (caller policyId : Nat) :
    Except ProtocolError SystemState :=
  let policy := s.engine.policies policyId
  if !policy.exists_ then .error .policyDoesNotExist
  else if s.engine.balanceOf caller policyId = 0 then .error .notPolicyOwner
  else if policy.expiry ≤ s.time then .error .policyExpired
  else if policy.claimed then .error .policyAlreadyClaimed
  else
    match getScore s.oracle policy.protocol with
    | .error e => .error (.oracleCall e)
    | .ok currentScore =>
      if policy.strikeScore ≤ currentScore then .error .strikeNotBreached
      else if s.engine.totalInsuredPerProtocol policy.protocol < policy.payoutAmount then
        .error .insuredUnderflow
      else
        match withdrawForPayout s.vault engineAddr caller policy.payoutAmount with
        | .error e => .error (.vaultCall e)
        | .ok vault1 =>
          .ok { s with
            vault := vault1,
            engine :=
              { s.engine with
                policies := fun i =>
                  if i = policyId then { policy with claimed := true } else s.engine.policies i,
                totalInsuredPerProtocol := fun p =>
                  if p = policy.protocol then
                    s.engine.totalInsuredPerProtocol policy.protocol - policy.payoutAmount
                  else s.engine.totalInsuredPerProtocol p,
                balanceOf := fun a i =>
                  if a = caller ∧ i = policyId then s.engine.balanceOf a i - 1
                  else s.engine.balanceOf a i } }

/-- `EquinoxProtocol.isClaimable(policyId)`: the read-only eligibility check.
It is a pure function of the state (a Solidity `view`), returning either the
pair `(claimable, reason)` or, when the stored policy references an
unregistered protocol, the revert of `oracle.getScore`. -/
def isClaimable (s : SystemState) (policyId : Nat) :
    Except OracleError (Bool × String) :=
  let policy := s.engine.policies policyId
  if !policy.exists_ then .ok (false, "Policy does not exist")
  else if policy.claimed then .ok (false, "Policy already claimed")
  else if policy.expiry ≤ s.time then .ok (false, "Policy expired")
  else
    match getScore s.oracle policy.protocol with
    | .error e => .error e
    | .ok currentScore =>
      if policy.strikeScore ≤ currentScore then .ok (false, "Strike not breached")
      else .ok (true, "")

/-- The freshly deployed system: empty oracle (nothing registered, no verifier,
all mappings at their zero defaults), empty vault whose `equinoxProtocol`
authority has been bound to the engine by `setDeRiskProtocol`, empty policy
store, block timestamp 0. -/
def initState : SystemState :=
  { oracle :=
      { safetyScores := fun _ => 0,
        isProtocolRegistered := fun _ => false,
        registeredProtocols := [],
        verifierConfigured := false,
        protocolImageIds := fun _ => 0,
        protocolMetrics := fun _ => { totalAssets := 0, totalLiabilities := 0,
                                      lastUpdateTime := 0, zkVerificationCount := 0 } },
    vault := { totalAssets := 0, totalSupply := 0, selfShares := 0,
               equinoxProtocol := engineAddr },
    engine := { nextPolicyId := 0, policies := fun _ => emptyPolicy,
                totalInsuredPerProtocol := fun _ => 0,
                balanceOf := fun _ _ => 0 },
    time := 0 }

/-- One on-chain transition of the system.  `tick` advances the block
timestamp.  `extVault` is an environment step on the vault component alone: the
vault's asset/share ledger is externally mutable without engine or oracle
involvement (direct ERC20 donations, the public ERC4626 `deposit`/`mint`/
`withdraw`/`redeem` interface inherited by `PremiumVault`, direct
`depositPremium` calls, `emergencyWithdraw`, `setDeRiskProtocol`), so any
vault-only change is allowed; every engine/oracle fact proved over `Reachable`
therefore holds however the vault is driven.  The remaining constructors are
the oracle and engine entry points, which step only on a successful (`.ok`)
outcome — a reverted call leaves the state unchanged and is not a step. -/
inductive Step : SystemState → SystemState → Prop where
  | tick (s : SystemState) (dt : Nat) : Step s { s with time := s.time + dt }
  | extVault (s : SystemState) (v : VaultState) : Step s { s with vault := v }
  | oracleAdd (s : SystemState) (isOwner : Bool) (protocol initialScore : Nat)
      (o : OracleState) (h : addProtocol s.oracle isOwner protocol initialScore = .ok o) :
      Step s { s with oracle := o }
  | oracleManual (s : SystemState) (isOwner : Bool) (protocol newScore : Nat)
      (o : OracleState) (h : updateScore s.oracle isOwner s.time protocol newScore = .ok o) :
      Step s { s with oracle := o }
  | oracleSetVerifier (s : SystemState) (isOwner : Bool) (verifier : Nat)
      (o : OracleState) (h : setVerifier s.oracle isOwner verifier = .ok o) :
      Step s { s with oracle := o }
  | oracleSetImageId (s : SystemState) (isOwner : Bool) (protocol imageId : Nat)
      (o : OracleState) (h : setImageId s.oracle isOwner protocol imageId = .ok o) :
      Step s { s with oracle := o }
  | oracleProof (s : SystemState) (verify : Verifier) (protocol : Nat)
      (journal sealBytes : List Nat) (o : OracleState)
      (h : (updateScoreWithProof verify s.oracle protocol journal sealBytes).1 = .ok o) :
      Step s { s with oracle := o }
  | buy (s : SystemState) (caller protocol strikeScore durationInDays payoutAmount : Nat)
      (s2 : SystemState) (policyId : Nat)
      (h : buyPolicy s caller protocol strikeScore durationInDays payoutAmount = .ok (s2, policyId)) :
      Step s s2
  | claim (s : SystemState) (caller policyId : Nat) (s2 : SystemState)
      (h : claimPayout s caller policyId = .ok s2) :
      Step s s2

/-- States reachable from deployment by any sequence of transitions. -/
def Reachable (s : SystemState) : Prop :=
  Relation.ReflTransGen Step initState s

/-- Payout contributed by policy `policyId` to the open (non-claimed) exposure
of `protocol`, irrespective of expiry. -/
def openContribution (e : EngineState) (protocol policyId : Nat) : Nat :=
  let p := e.policies policyId
  if p.exists_ = true ∧ p.claimed = false ∧ p.protocol = protocol then p.payoutAmount else 0

/-- Sum of `payoutAmount` over all existing, non-claimed policies referencing
`protocol` (expired or not). -/
def openInsuredSum (e : EngineState) (protocol : Nat) : Nat :=
  Finset.sum (Finset.range e.nextPolicyId) (openContribution e protocol)

/-- Modelled from the spec: payout contributed by policy `policyId` to the
"non-claimed, non-expired" exposure of `protocol` at time `time` — a policy is
expired once `time` reaches its `expiry`. -/
def activeContribution (e : EngineState) (time protocol policyId : Nat) : Nat :=
  let p := e.policies policyId
  if p.exists_ = true ∧ p.claimed = false ∧ time < p.expiry ∧ p.protocol = protocol then
    p.payoutAmount
  else 0

/-- Modelled from the spec: sum of `payoutAmount` over all non-claimed,
non-expired policies referencing `protocol` at time `time`. -/
def activeInsuredSum (e : EngineState) (time protocol : Nat) : Nat :=
  Finset.sum (Finset.range e.nextPolicyId) (activeContribution e time protocol)

/-- Inductive invariant of the reachable states:
scores of registered protocols stay in `[0,100]`; every stored policy
references a registered protocol; ids at or above `nextPolicyId` are unset;
and the per-protocol aggregate equals the open (non-claimed) exposure. -/
structure SysInv (s : SystemState) : Prop where
  score_le : ∀ p, s.oracle.isProtocolRegistered p = true → s.oracle.safetyScores p ≤ 100
  policy_registered : ∀ i, (s.engine.policies i).exists_ = true →
    s.oracle.isProtocolRegistered (s.engine.policies i).protocol = true
  fresh : ∀ i, s.engine.nextPolicyId ≤ i → s.engine.policies i = emptyPolicy
  insured_sum : ∀ p, s.engine.totalInsuredPerProtocol p = openInsuredSum s.engine p

/-- Value of a successful `Except` computation, with a fallback for the error
case; used to name the concrete states of executed scenarios. -/
def okOr {ε α : Type} (x : Except ε α) (d : α) : α :=
  match x with
  | .ok a => a
  | .error _ => d

/-- The success conditions of `withdrawForPayout` when called by the engine:
the engine is the bound authority, the recipient is nonzero, the amount is
nonzero, the shares to burn are available and the assets suffice. -/
def vaultCanCover (v : VaultState) (toAddr amount : Nat) : Prop :=
  engineAddr = v.equinoxProtocol ∧ toAddr ≠ 0 ∧ amount ≠ 0 ∧
  (if previewWithdraw v amount = 0 then 1 else previewWithdraw v amount) ≤ v.selfShares ∧
  amount ≤ v.totalAssets

/-- Post-state of an `updateScoreWithProof` transaction: on success the new
oracle state, on revert the unchanged pre-state. -/
def applyProofUpdate (verify : Verifier) (s : OracleState) (protocol : Nat)
    (journal sealBytes : List Nat) : OracleState :=
  match (updateScoreWithProof verify s protocol journal sealBytes).1 with
  | .ok s2 => s2
  | .error _ => s

/-- A verifier behaviour that accepts every submission. -/
def acceptAll : Verifier := fun _ _ _ => true

/-- A verifier behaviour that rejects every submission. -/
def rejectAll : Verifier := fun _ _ _ => false

/-- Little-endian byte encoding of `v` on `k` bytes. -/
def toLEBytes : Nat → Nat → List Nat
  | 0, _ => []
  | k + 1, v => v % 256 :: toLEBytes k (v / 256)

/-- A 48-byte attestation journal: `u64` score in basis points, `u128` total
assets, `u128` total liabilities, `u64` timestamp, all little-endian. -/
def journalBytes (scoreBP assets liabilities timestamp : Nat) : List Nat :=
  toLEBytes 8 scoreBP ++ toLEBytes 16 assets ++ toLEBytes 16 liabilities ++ toLEBytes 8 timestamp

/-- Scenario: protocol `7` registered at score 95. -/
def c2s1 : SystemState :=
  { initState with oracle := okOr (addProtocol initState.oracle true 7 95) initState.oracle }

/-- Scenario: the vault then holds 2 USDC of donated assets (vault balances
are externally fundable by plain ERC20 transfers). -/
def c2s2 : SystemState :=
  { c2s1 with vault := { totalAssets := 2000000, totalSupply := 0, selfShares := 0,
                         equinoxProtocol := engineAddr } }

/-- Scenario: buyer `5` buys policy 0 on protocol `7`, strike 80, 1 day,
payout 1 USDC. -/
def c2s3 : SystemState := (okOr (buyPolicy c2s2 5 7 80 1 1000000) (c2s2, 0)).1

/-- Scenario: one day plus a second passes, so policy 0 is expired but was
never claimed. -/
def c2State : SystemState := { c2s3 with time := c2s3.time + 86401 }

/-- Scenario: from the registered-protocol state, the vault holds 10 USDC of
donated assets. -/
def c3s2 : SystemState :=
  { c2s1 with vault := { totalAssets := 10000000, totalSupply := 0, selfShares := 0,
                         equinoxProtocol := engineAddr } }

/-- Scenario: buyer `5` buys policy 0 on protocol `7`, strike 90, 10 days,
payout 2 USDC. -/
def c3s3 : SystemState := (okOr (buyPolicy c3s2 5 7 90 10 2000000) (c3s2, 0)).1

/-- Scenario: the operator manually lowers protocol 7's score to 50, breaching
the strike. -/
def c3s4 : SystemState :=
  { c3s3 with oracle := okOr (updateScore c3s3.oracle true c3s3.time 7 50) c3s3.oracle }

/-- Scenario: buyer `5` claims policy 0 successfully. -/
def c3s5 : SystemState := okOr (claimPayout c3s4 5 0) c3s4

/-- Scenario variant: protocol 7's score set to exactly the strike (90). -/
def c4sEq : SystemState :=
  { c3s3 with oracle := okOr (updateScore c3s3.oracle true c3s3.time 7 90) c3s3.oracle }

/-- Scenario variant: protocol 7's score set to one below the strike (89). -/
def c4sLt : SystemState :=
  { c3s3 with oracle := okOr (updateScore c3s3.oracle true c3s3.time 7 89) c3s3.oracle }

/-- A configured oracle: protocol `7` registered, a verifier configured, image
id `5` bound to protocol `7`. -/
def c9Oracle : OracleState :=
  { safetyScores := fun p => if p = 7 then 95 else 0,
    isProtocolRegistered := fun p => if p = 7 then true else false,
    registeredProtocols := [7],
    verifierConfigured := true,
    protocolImageIds := fun p => if p = 7 then 5 else 0,
    protocolMetrics := fun _ => { totalAssets := 0, totalLiabilities := 0,
                                  lastUpdateTime := 0, zkVerificationCount := 0 } }

/-- Oracle after a first accepted attestation carrying journal timestamp 100. -/
def c9o1 : OracleState := applyProofUpdate acceptAll c9Oracle 7 (journalBytes 9000 5 6 100) []

/-- Oracle after a second accepted attestation carrying the older journal
timestamp 50. -/
def c9o2 : OracleState := applyProofUpdate acceptAll c9o1 7 (journalBytes 5000 4 3 50) []

/-- Oracle after a manual score update of protocol 7 to 60 at timestamp 1234. -/
def c10After : OracleState := okOr (updateScore c9Oracle true 1234 7 60) c9Oracle

/-- The deployment state satisfies the invariant. -/
theorem sysInv_init : SysInv initState := by
  refine ⟨?_, ?_, ?_, ?_⟩
  · intro p hp
    simp [initState] at hp
  · intro i hi
    simp [initState, emptyPolicy] at hi
  · intro i _
    rfl
  · intro p
    simp [initState, openInsuredSum]

/-- Replacing the oracle component preserves the invariant, given that the new
oracle keeps every previously registered protocol registered and keeps all
registered scores within bound. -/
theorem sysInv_oracle {s : SystemState} {o : OracleState}
    (hreg : ∀ p, s.oracle.isProtocolRegistered p = true → o.isProtocolRegistered p = true)
    (hsc : ∀ p, o.isProtocolRegistered p = true → o.safetyScores p ≤ 100)
    (inv : SysInv s) : SysInv { s with oracle := o } := by
  refine ⟨hsc, ?_, inv.fresh, inv.insured_sum⟩
  intro i hi
  exact hreg _ (inv.policy_registered i hi)

/-- A successful `addProtocol` keeps registration monotone and scores bounded. -/
theorem addProtocol_preserves {s : OracleState} {io : Bool} {pr sc : Nat} {o : OracleState}
    (h : addProtocol s io pr sc = .ok o)
    (hb : ∀ p, s.isProtocolRegistered p = true → s.safetyScores p ≤ 100) :
    (∀ p, s.isProtocolRegistered p = true → o.isProtocolRegistered p = true) ∧
    (∀ p, o.isProtocolRegistered p = true → o.safetyScores p ≤ 100) := by
  unfold addProtocol at h
  split_ifs at h with h1 h2 h3 h4
  injection h with h
  subst h
  constructor
  · intro p hp
    by_cases hpp : p = pr <;> simp [hpp, hp]
  · intro p hp
    show (if p = pr then sc else s.safetyScores p) ≤ 100
    by_cases hpp : p = pr
    · rw [if_pos hpp]
      omega
    · rw [if_neg hpp]
      simp only [if_neg hpp] at hp
      exact hb p hp

/-- A successful manual `updateScore` keeps registration monotone and scores
bounded. -/
theorem updateScore_preserves {s : OracleState} {io : Bool} {t pr sc : Nat} {o : OracleState}
    (h : updateScore s io t pr sc = .ok o)
    (hb : ∀ p, s.isProtocolRegistered p = true → s.safetyScores p ≤ 100) :
    (∀ p, s.isProtocolRegistered p = true → o.isProtocolRegistered p = true) ∧
    (∀ p, o.isProtocolRegistered p = true → o.safetyScores p ≤ 100) := by
  unfold updateScore at h
  split_ifs at h with h1 h2 h3
  injection h with h
  subst h
  constructor
  · intro p hp
    exact hp
  · intro p hp
    show (if p = pr then sc else s.safetyScores p) ≤ 100
    by_cases hpp : p = pr
    · rw [if_pos hpp]
      omega
    · rw [if_neg hpp]
      exact hb p hp

/-- A successful `setVerifier` keeps registration and scores untouched. -/
theorem setVerifier_preserves {s : OracleState} {io : Bool} {v : Nat} {o : OracleState}
    (h : setVerifier s io v = .ok o)
    (hb : ∀ p, s.isProtocolRegistered p = true → s.safetyScores p ≤ 100) :
    (∀ p, s.isProtocolRegistered p = true → o.isProtocolRegistered p = true) ∧
    (∀ p, o.isProtocolRegistered p = true → o.safetyScores p ≤ 100) := by
  unfold setVerifier at h
  split_ifs at h with h1 h2
  injection h with h
  subst h
  exact ⟨fun p hp => hp, hb⟩

/-- A successful `setImageId` keeps registration and scores untouched. -/
theorem setImageId_preserves {s : OracleState} {io : Bool} {pr im : Nat} {o : OracleState}
    (h : setImageId s io pr im = .ok o)
    (hb : ∀ p, s.isProtocolRegistered p = true → s.safetyScores p ≤ 100) :
    (∀ p, s.isProtocolRegistered p = true → o.isProtocolRegistered p = true) ∧
    (∀ p, o.isProtocolRegistered p = true → o.safetyScores p ≤ 100) := by
  unfold setImageId at h
  split_ifs at h with h1 h2 h3
  injection h with h
  subst h
  exact ⟨fun p hp => hp, hb⟩

/-- A successful proof-gated `updateScoreWithProof` keeps registration monotone
and scores bounded: the stored score is capped at 100 even when the journal's
basis-points field exceeds 10000. -/
theorem updateScoreWithProof_preserves {verify : Verifier} {s : OracleState}
    {pr : Nat} {j sl : List Nat} {o : OracleState}
    (h : (updateScoreWithProof verify s pr j sl).1 = .ok o)
    (hb : ∀ p, s.isProtocolRegistered p = true → s.safetyScores p ≤ 100) :
    (∀ p, s.isProtocolRegistered p = true → o.isProtocolRegistered p = true) ∧
    (∀ p, o.isProtocolRegistered p = true → o.safetyScores p ≤ 100) := by
  simp only [updateScoreWithProof] at h
  split_ifs at h with h1 h2 h3 h4 h5 h6 <;>
  · injection h with h
    subst h
    refine ⟨fun p hp => hp, fun p hp => ?_⟩
    show (if p = pr then _ else s.safetyScores p) ≤ 100
    by_cases hpp : p = pr
    · rw [if_pos hpp] <;> omega
    · rw [if_neg hpp]
      exact hb p hp

/-- Appending a fresh policy at the current id frontier adds exactly its
contribution to the open exposure. -/
theorem openInsuredSum_snoc (e e2 : EngineState) (p : Nat)
    (hn : e2.nextPolicyId = e.nextPolicyId + 1)
    (hagree : ∀ i, i < e.nextPolicyId → e2.policies i = e.policies i) :
    openInsuredSum e2 p =
      openInsuredSum e p + openContribution e2 p e.nextPolicyId := by
  unfold openInsuredSum
  rw [hn, Finset.sum_range_succ]
  congr 1
  apply Finset.sum_congr rfl
  intro i hi
  unfold openContribution
  rw [hagree i (Finset.mem_range.mp hi)]

/-- Changing a single stored policy in place trades its old contribution to
the open exposure for its new one. -/
theorem openInsuredSum_update (e e2 : EngineState) (p pid : Nat)
    (hn : e2.nextPolicyId = e.nextPolicyId)
    (hpid : pid < e.nextPolicyId)
    (hagree : ∀ i, i ≠ pid → e2.policies i = e.policies i) :
    openInsuredSum e2 p + openContribution e p pid =
      openInsuredSum e p + openContribution e2 p pid := by
  unfold openInsuredSum
  rw [hn]
  have hmem : pid ∈ Finset.range e.nextPolicyId := Finset.mem_range.mpr hpid
  have e2eq : Finset.sum (Finset.range e.nextPolicyId) (openContribution e2 p) =
      openContribution e2 p pid +
        Finset.sum ((Finset.range e.nextPolicyId).erase pid) (openContribution e2 p) :=
    (Finset.add_sum_erase _ (openContribution e2 p) hmem).symm
  have e1eq : Finset.sum (Finset.range e.nextPolicyId) (openContribution e p) =
      openContribution e p pid +
        Finset.sum ((Finset.range e.nextPolicyId).erase pid) (openContribution e p) :=
    (Finset.add_sum_erase _ (openContribution e p) hmem).symm
  have herase :
      Finset.sum ((Finset.range e.nextPolicyId).erase pid) (openContribution e2 p) =
      Finset.sum ((Finset.range e.nextPolicyId).erase pid) (openContribution e p) := by
    apply Finset.sum_congr rfl
    intro i hi
    unfold openContribution
    rw [hagree i (Finset.mem_erase.mp hi).1]
  omega

/-- A successful `buyPolicy` preserves the invariant: the new policy references
a registered protocol, the id counter stays the frontier of the policy store,
and the aggregate insured amount rises by exactly the new policy's payout. -/
theorem buyPolicy_preserves {s : SystemState} {caller pr st d pa : Nat}
    {s2 : SystemState} {pid : Nat}
    (h : buyPolicy s caller pr st d pa = .ok (s2, pid)) (inv : SysInv s) : SysInv s2 := by
  simp only [buyPolicy] at h
  split_ifs at h with h1 h2 h3 h4 h5
  split at h
  · exact Except.noConfusion h
  rename_i vres vault1 shares hdep
  injection h with h
  injection h with hst hpid
  subst hst
  have hreg : s.oracle.isProtocolRegistered pr = true := by
    simpa using h1
  refine ⟨inv.score_le, ?_, ?_, ?_⟩
  · intro i hi
    by_cases hip : i = s.engine.nextPolicyId
    · simp [hip] at hi ⊢
      exact hreg
    · simp [hip] at hi ⊢
      exact inv.policy_registered i hi
  · intro i hi
    simp only at hi ⊢
    have hne : i ≠ s.engine.nextPolicyId := by omega
    show (if i = s.engine.nextPolicyId then _ else s.engine.policies i) = emptyPolicy
    rw [if_neg hne]
    exact inv.fresh i (by omega)
  · intro p
    rw [openInsuredSum_snoc s.engine _ p rfl (fun i hi => if_neg (by omega))]
    by_cases hpp : p = pr
    · subst hpp
      simp [openContribution, inv.insured_sum]
    · simp [openContribution, inv.insured_sum, hpp, Ne.symm hpp]

/-- Claim-shaped engine update: marking one existing, previously unclaimed
policy claimed while subtracting its payout from its protocol's aggregate
keeps the aggregate equal to the open exposure. -/
theorem insured_sum_claim (e e2 : EngineState) (pid : Nat)
    (hn : e2.nextPolicyId = e.nextPolicyId)
    (hpid : pid < e.nextPolicyId)
    (hagree : ∀ i, i ≠ pid → e2.policies i = e.policies i)
    (hex : (e.policies pid).exists_ = true)
    (hncl : (e.policies pid).claimed = false)
    (hcl2 : (e2.policies pid).claimed = true)
    (hinv : ∀ p, e.totalInsuredPerProtocol p = openInsuredSum e p)
    (htot : ∀ p, e2.totalInsuredPerProtocol p =
      if p = (e.policies pid).protocol then
        e.totalInsuredPerProtocol (e.policies pid).protocol - (e.policies pid).payoutAmount
      else e.totalInsuredPerProtocol p)
    (hle : (e.policies pid).payoutAmount ≤
      e.totalInsuredPerProtocol (e.policies pid).protocol) :
    ∀ p, e2.totalInsuredPerProtocol p = openInsuredSum e2 p := by
  intro p
  have key := openInsuredSum_update e e2 p pid hn hpid hagree
  have f2pid : openContribution e2 p pid = 0 := by
    unfold openContribution
    simp [hcl2]
  have fpid : openContribution e p pid =
      if (e.policies pid).protocol = p then (e.policies pid).payoutAmount else 0 := by
    unfold openContribution
    simp [hex, hncl]
  rw [htot p]
  rw [hinv ((e.policies pid).protocol)] at hle
  by_cases hpp : p = (e.policies pid).protocol
  · subst hpp
    rw [if_pos rfl, hinv]
    rw [if_pos rfl] at fpid
    omega
  · rw [if_neg hpp, hinv]
    rw [if_neg (fun hh => hpp hh.symm)] at fpid
    omega

/-- A successful `claimPayout` preserves the invariant: the claimed policy's
payout leaves the open exposure exactly as the aggregate is decremented, and
nothing else in the engine's bookkeeping moves. -/
theorem claimPayout_preserves {s : SystemState} {caller pid : Nat} {s2 : SystemState}
    (h : claimPayout s caller pid = .ok s2) (inv : SysInv s) : SysInv s2 := by
  simp only [claimPayout] at h
  split_ifs at h with h1 h2 h3 h4 h6
  all_goals repeat' split at h
  all_goals try exact Except.noConfusion h
  injection h with h
  subst h
  have hex : (s.engine.policies pid).exists_ = true := by simpa using h1
  have hpidlt : pid < s.engine.nextPolicyId := by
    rcases Nat.lt_or_ge pid s.engine.nextPolicyId with hlt | hge
    · exact hlt
    · exfalso
      have hfalse := inv.fresh pid hge
      rw [hfalse] at hex
      simp [emptyPolicy] at hex
  refine ⟨inv.score_le, ?_, ?_, ?_⟩
  · intro i hi
    by_cases hip : i = pid
    · subst hip
      simp at hi ⊢
      exact inv.policy_registered i hex
    · simp [hip] at hi ⊢
      exact inv.policy_registered i hi
  · intro i hi
    have hi2 : s.engine.nextPolicyId ≤ i := hi
    have hne : i ≠ pid := by omega
    show (if i = pid then _ else s.engine.policies i) = emptyPolicy
    rw [if_neg hne]
    exact inv.fresh i hi2
  · exact insured_sum_claim s.engine _ pid rfl hpidlt (fun i hi => if_neg hi)
      hex (by simpa using h4) (by simp) inv.insured_sum (fun p => rfl) (by omega)

/-- Every transition of the system preserves the invariant. -/
theorem step_preserves {s s2 : SystemState} (hs : Step s s2) (inv : SysInv s) : SysInv s2 := by
  cases hs with
  | tick dt =>
    exact ⟨inv.score_le, inv.policy_registered, inv.fresh, inv.insured_sum⟩
  | extVault v =>
    exact ⟨inv.score_le, inv.policy_registered, inv.fresh, inv.insured_sum⟩
  | oracleAdd io pr sc o h =>
    have hp := addProtocol_preserves h inv.score_le
    exact sysInv_oracle hp.1 hp.2 inv
  | oracleManual io pr sc o h =>
    have hp := updateScore_preserves h inv.score_le
    exact sysInv_oracle hp.1 hp.2 inv
  | oracleSetVerifier io v o h =>
    have hp := setVerifier_preserves h inv.score_le
    exact sysInv_oracle hp.1 hp.2 inv
  | oracleSetImageId io pr im o h =>
    have hp := setImageId_preserves h inv.score_le
    exact sysInv_oracle hp.1 hp.2 inv
  | oracleProof verify pr j sl o h =>
    have hp := updateScoreWithProof_preserves h inv.score_le
    exact sysInv_oracle hp.1 hp.2 inv
  | buy caller pr st d pa s2 pid h =>
    exact buyPolicy_preserves h inv
  | claim caller pid s2 h =>
    exact claimPayout_preserves h inv

/-- Every reachable state satisfies the invariant. -/
theorem reachable_inv {s : SystemState} (h : Reachable s) : SysInv s := by
  induction h with
  | refl => exact sysInv_init
  | tail hab hbc ih => exact step_preserves hbc ih

/-- The expired-unclaimed-policy scenario state is reachable: register, fund
the vault, buy a one-day policy, let a day pass. -/
theorem reachable_c2State : Reachable c2State := by
  have s1 : Step initState c2s1 := Step.oracleAdd initState true 7 95 c2s1.oracle rfl
  have s2 : Step c2s1 c2s2 := Step.extVault c2s1 c2s2.vault
  have s3 : Step c2s2 c2s3 := Step.buy c2s2 5 7 80 1 1000000 c2s3 0 rfl
  have s4 : Step c2s3 c2State := Step.tick c2s3 86401
  exact Relation.ReflTransGen.tail
    (Relation.ReflTransGen.tail
      (Relation.ReflTransGen.tail (Relation.ReflTransGen.single s1) s2) s3) s4

/-- The claimed-policy scenario state is reachable: register, fund the vault,
buy, lower the score below the strike, claim. -/
theorem reachable_c3s5 : Reachable c3s5 := by
  have s1 : Step initState c2s1 := Step.oracleAdd initState true 7 95 c2s1.oracle rfl
  have s2 : Step c2s1 c3s2 := Step.extVault c2s1 c3s2.vault
  have s3 : Step c3s2 c3s3 := Step.buy c3s2 5 7 90 10 2000000 c3s3 0 rfl
  have s4 : Step c3s3 c3s4 := Step.oracleManual c3s3 true 7 50 c3s4.oracle rfl
  have s5 : Step c3s4 c3s5 := Step.claim c3s4 5 0 c3s5 rfl
  exact Relation.ReflTransGen.tail
    (Relation.ReflTransGen.tail
      (Relation.ReflTransGen.tail
        (Relation.ReflTransGen.tail (Relation.ReflTransGen.single s1) s2) s3) s4) s5

/-- Across any single transition from an invariant-satisfying state, a policy's
`claimed` flag never reverts from `true`. -/
theorem step_claimed_mono {s s2 : SystemState} (inv : SysInv s) (hs : Step s s2) :
    ∀ i, (s.engine.policies i).claimed = true → (s2.engine.policies i).claimed = true := by
  cases hs with
  | tick dt => exact fun i hi => hi
  | extVault v => exact fun i hi => hi
  | oracleAdd io pr sc o h => exact fun i hi => hi
  | oracleManual io pr sc o h => exact fun i hi => hi
  | oracleSetVerifier io v o h => exact fun i hi => hi
  | oracleSetImageId io pr im o h => exact fun i hi => hi
  | oracleProof verify pr j sl o h => exact fun i hi => hi
  | buy caller pr st d pa s2 pid h =>
    intro i hi
    simp only [buyPolicy] at h
    split_ifs at h with h1 h2 h3 h4 h5
    split at h
    · exact Except.noConfusion h
    rename_i vres vault1 shares hdep
    injection h with h
    injection h with hst hpid
    subst hst
    by_cases hip : i = s.engine.nextPolicyId
    · exfalso
      have hfr := inv.fresh i (by omega)
      rw [hfr] at hi
      simp [emptyPolicy] at hi
    · show (if i = s.engine.nextPolicyId then _ else s.engine.policies i).claimed = true
      rw [if_neg hip]
      exact hi
  | claim caller pid s2 h =>
    intro i hi
    simp only [claimPayout] at h
    split_ifs at h with h1 h2 h3 h4 h6
    all_goals repeat' split at h
    all_goals try exact Except.noConfusion h
    injection h with h
    subst h
    by_cases hip : i = pid
    · subst hip
      simp
    · show (if i = pid then _ else s.engine.policies i).claimed = true
      rw [if_neg hip]
      exact hi

/-- `withdrawForPayout` succeeds for the engine exactly under `vaultCanCover`. -/
theorem withdrawForPayout_ok {v : VaultState} {toAddr amount : Nat}
    (h : vaultCanCover v toAddr amount) :
    ∃ v2, withdrawForPayout v engineAddr toAddr amount = .ok v2 := by
  obtain ⟨h1, h2, h3, h4, h5⟩ := h
  refine ⟨{ v with
    totalAssets := v.totalAssets - amount,
    totalSupply := v.totalSupply -
      (if previewWithdraw v amount = 0 then 1 else previewWithdraw v amount),
    selfShares := v.selfShares -
      (if previewWithdraw v amount = 0 then 1 else previewWithdraw v amount) }, ?_⟩
  simp only [withdrawForPayout]
  rw [if_neg (fun hn => hn h1), if_neg h2, if_neg h3,
      if_neg (Nat.not_lt.mpr h4), if_neg (Nat.not_lt.mpr h5)]

/-- C1: the claim fails on the code.  At a vault state with nonzero share
supply where `convertToShares` rounds a nonzero deposit to 0 shares
(`totalAssets = 2`, `totalSupply = 1`, deposit 1 — reachable by
`depositPremium 1` on the empty vault followed by a 1-unit ERC20 donation),
`depositPremium` completes successfully, pulls the 1 asset unit in and mints
0 shares instead of reverting `DepositTooSmall`: the recomputation via
`previewDeposit` (identical to `convertToShares` in OpenZeppelin ERC4626)
yields 0 again, and the guard reverts only when that recomputation is
positive, so the rejection is unreachable. -/
theorem depositPremium_mints_zero_shares :
    depositPremium
      { totalAssets := 2, totalSupply := 1, selfShares := 1,
        equinoxProtocol := engineAddr } 1 =
    .ok ({ totalAssets := 3, totalSupply := 1, selfShares := 1,
           equinoxProtocol := engineAddr }, 0) := by
  rfl

/-- C2: counterexample to the claim as stated.  In the reachable state
`c2State` — one policy bought on subject 7 with payout 1000000, now expired
and never claimed — `totalInsuredPerProtocol 7` still holds 1000000, while the
sum of `payoutAmount` over the non-claimed, non-expired policies of subject 7
at the current time is 0: expiry is never accompanied by a decrement. -/
theorem totalInsured_active_sum_counterexample :
    Reachable c2State ∧
    c2State.engine.totalInsuredPerProtocol 7 = 1000000 ∧
    activeInsuredSum c2State.engine c2State.time 7 = 0 :=
  ⟨reachable_c2State, rfl, by decide⟩

/-- C2 (amended): for every reachable state and every insured subject,
`totalInsuredPerProtocol` equals the sum of `payoutAmount` over all existing
non-claimed policies referencing that subject, whether expired or not — it is
incremented atomically with issuance and decremented atomically with claim,
never independently, and in particular never at expiry. -/
theorem totalInsured_eq_open_sum {s : SystemState} (h : Reachable s) (p : Nat) :
    s.engine.totalInsuredPerProtocol p = openInsuredSum s.engine p :=
  (reachable_inv h).insured_sum p

/-- C2 witness: the amended invariant evaluated at the concrete reachable
scenario state with an expired, unclaimed policy. -/
theorem totalInsured_eq_open_sum_witness :
    c2State.engine.totalInsuredPerProtocol 7 = openInsuredSum c2State.engine 7 :=
  totalInsured_eq_open_sum reachable_c2State 7

/-- C3: counterexample to the claim as stated.  In the reachable state `c3s5`,
policy 0 has been successfully claimed (`claimed = true`), yet a second
`claimPayout` attempt by the original claimer fails with `NotPolicyOwner` —
the claim token was burned, so the ownership check trips before the
`PolicyAlreadyClaimed` check is reached — not with the 'already claimed'
error. -/
theorem second_claim_error_counterexample :
    Reachable c3s5 ∧ (c3s5.engine.policies 0).claimed = true ∧
    claimPayout c3s5 5 0 = .error .notPolicyOwner :=
  ⟨reachable_c3s5, rfl, rfl⟩

/-- C3 (amended): for every policy id, across any sequence of operations the
claimed flag transitions false→true at most once and never back, and every
`claimPayout` attempt on a policy whose claimed flag is already true fails
(leaving the state unchanged, since a reverted call is not a step), though not
necessarily with the 'already claimed' error: after a real claim the burned
claim token makes the ownership check fail first. -/
theorem claimed_write_once :
    (∀ s s2, Reachable s → Step s s2 → ∀ i,
      (s.engine.policies i).claimed = true → (s2.engine.policies i).claimed = true) ∧
    (∀ s caller policyId, (s.engine.policies policyId).claimed = true →
      ∃ e, claimPayout s caller policyId = .error e) := by
  constructor
  · intro s s2 hr hs i hi
    exact step_claimed_mono (reachable_inv hr) hs i hi
  · intro s caller policyId hcl
    cases hbx : (s.engine.policies policyId).exists_ with
    | false => exact ⟨.policyDoesNotExist, by simp [claimPayout, hbx]⟩
    | true =>
      by_cases hbal : s.engine.balanceOf caller policyId = 0
      · exact ⟨.notPolicyOwner, by simp [claimPayout, hbx, hbal]⟩
      · by_cases hexp : (s.engine.policies policyId).expiry ≤ s.time
        · exact ⟨.policyExpired, by simp [claimPayout, hbx, hbal, hexp]⟩
        · exact ⟨.policyAlreadyClaimed, by simp [claimPayout, hbx, hbal, hexp, hcl]⟩

/-- C3 witness: both parts of the amended claim applied at the concrete
claimed-policy scenario state. -/
theorem claimed_write_once_witness :
    ({ c3s5 with time := c3s5.time + 0 }.engine.policies 0).claimed = true ∧
    (∃ e, claimPayout c3s5 5 0 = .error e) :=
  ⟨claimed_write_once.1 c3s5 { c3s5 with time := c3s5.time + 0 } reachable_c3s5
      (Step.tick c3s5 0) 0 rfl,
   claimed_write_once.2 c3s5 5 0 rfl⟩

/-- C4: for a policy eligible in all other respects (it exists, the caller
holds a claim token, it is unexpired and unclaimed, its subject is registered,
the aggregate can absorb the decrement and the vault can cover the payout),
`claimPayout` fails with `StrikeNotBreached` when the subject's score equals
`strikeScore`, and succeeds when the score equals `strikeScore - 1`. -/
theorem strict_strike_boundary (s : SystemState) (caller pid : Nat)
    (hex : (s.engine.policies pid).exists_ = true)
    (hbal : s.engine.balanceOf caller pid ≠ 0)
    (hexp : s.time < (s.engine.policies pid).expiry)
    (hncl : (s.engine.policies pid).claimed = false)
    (hreg : s.oracle.isProtocolRegistered (s.engine.policies pid).protocol = true)
    (hins : (s.engine.policies pid).payoutAmount ≤
      s.engine.totalInsuredPerProtocol (s.engine.policies pid).protocol)
    (hcov : vaultCanCover s.vault caller (s.engine.policies pid).payoutAmount)
    (hstrike : 1 ≤ (s.engine.policies pid).strikeScore) :
    (s.oracle.safetyScores (s.engine.policies pid).protocol =
        (s.engine.policies pid).strikeScore →
      claimPayout s caller pid = .error .strikeNotBreached) ∧
    (s.oracle.safetyScores (s.engine.policies pid).protocol =
        (s.engine.policies pid).strikeScore - 1 →
      ∃ s2, claimPayout s caller pid = .ok s2) := by
  have hgs : getScore s.oracle (s.engine.policies pid).protocol =
      .ok (s.oracle.safetyScores (s.engine.policies pid).protocol) := by
    unfold getScore
    rw [if_pos hreg]
  constructor
  · intro heq
    simp [claimPayout, hex, hbal, Nat.not_le.mpr hexp, hncl, hgs, heq]
  · intro heq
    have hlt : (s.engine.policies pid).strikeScore - 1 <
        (s.engine.policies pid).strikeScore := by omega
    obtain ⟨v2, hv2⟩ := withdrawForPayout_ok hcov
    simp [claimPayout, hex, hbal, Nat.not_le.mpr hexp, hncl, hgs, heq,
      Nat.not_le.mpr hlt, Nat.not_lt.mpr hins, hv2]

/-- C4 witness: at score exactly the strike (90) the concrete claim reverts
`StrikeNotBreached`; at score 89 it succeeds. -/
theorem strict_strike_boundary_witness :
    claimPayout c4sEq 5 0 = .error .strikeNotBreached ∧
    (∃ s2, claimPayout c4sLt 5 0 = .ok s2) := by
  constructor
  · exact (strict_strike_boundary c4sEq 5 0 rfl (by decide) (by decide) rfl rfl
      (by decide) (by unfold vaultCanCover; decide) (by decide)).1 rfl
  · exact (strict_strike_boundary c4sLt 5 0 rfl (by decide) (by decide) rfl rfl
      (by decide) (by unfold vaultCanCover; decide) (by decide)).2 rfl

/-- C5: `updateScoreWithProof` is atomic on failure.  A submission whose
journal length is not exactly 48 bytes is rejected with the external verifier
never invoked (the invocation flag stays `false`), for every verifier
behaviour; and when the verifier rejects (any failure mode), the whole update
returns an error, so the transaction reverts and the stored score, metadata
and verification counter are unchanged (`applyProofUpdate` keeps the
pre-state). -/
theorem proof_update_atomic (verify : Verifier) (s : OracleState)
    (protocol : Nat) (journal sealBytes : List Nat) :
    (journal.length ≠ 48 →
      (∃ e, (updateScoreWithProof verify s protocol journal sealBytes).1 = .error e) ∧
      (updateScoreWithProof verify s protocol journal sealBytes).2 = false) ∧
    (verify sealBytes (s.protocolImageIds protocol) journal = false →
      (∃ e, (updateScoreWithProof verify s protocol journal sealBytes).1 = .error e) ∧
      applyProofUpdate verify s protocol journal sealBytes = s) := by
  constructor
  · intro hlen
    simp only [updateScoreWithProof]
    by_cases h1 : s.isProtocolRegistered protocol
    · by_cases h2 : s.verifierConfigured
      · simp [h1, h2, hlen]
      · simp [h1, h2]
    · simp [h1]
  · intro hv
    have herr : ∃ e,
        (updateScoreWithProof verify s protocol journal sealBytes).1 = .error e := by
      simp only [updateScoreWithProof]
      by_cases h1 : s.isProtocolRegistered protocol
      · by_cases h2 : s.verifierConfigured
        · by_cases h3 : journal.length = 48
          · by_cases h4 : s.protocolImageIds protocol = 0
            · simp [h1, h2, h3, h4]
            · simp [h1, h2, h3, h4, hv]
          · simp [h1, h2, h3]
        · simp [h1, h2]
      · simp [h1]
    obtain ⟨e, he⟩ := herr
    refine ⟨⟨e, he⟩, ?_⟩
    unfold applyProofUpdate
    rw [he]

/-- C5 witness: a 47-byte journal is rejected without invoking the verifier,
and a rejected 48-byte submission leaves the configured oracle state
unchanged. -/
theorem proof_update_atomic_witness :
    ((∃ e, (updateScoreWithProof rejectAll c9Oracle 7 (List.replicate 47 0) []).1 =
        .error e) ∧
      (updateScoreWithProof rejectAll c9Oracle 7 (List.replicate 47 0) []).2 = false) ∧
    ((∃ e, (updateScoreWithProof rejectAll c9Oracle 7 (journalBytes 9000 5 6 100) []).1 =
        .error e) ∧
      applyProofUpdate rejectAll c9Oracle 7 (journalBytes 9000 5 6 100) [] = c9Oracle) :=
  ⟨(proof_update_atomic rejectAll c9Oracle 7 (List.replicate 47 0) []).1 (by decide),
   (proof_update_atomic rejectAll c9Oracle 7 (journalBytes 9000 5 6 100) []).2 rfl⟩

/-- C6: for every reachable state — in particular after any sequence of
`addProtocol`, `updateScore` and `updateScoreWithProof` calls, the latter with
arbitrary journals including basis-points fields above 10000 — the stored
safety score of every registered subject lies within `[0,100]`. -/
theorem registered_score_le_100 {s : SystemState} (h : Reachable s) (p : Nat)
    (hp : s.oracle.isProtocolRegistered p = true) :
    s.oracle.safetyScores p ≤ 100 :=
  (reachable_inv h).score_le p hp

/-- C6 witness: the bound evaluated at the concrete reachable scenario
state. -/
theorem registered_score_le_100_witness : c2State.oracle.safetyScores 7 ≤ 100 :=
  registered_score_le_100 reachable_c2State 7 rfl

/-- C7: for fixed duration in `[1,365]` and positive payout, the premium is
monotonically non-increasing in the strike score over `[1,100]`, including
across the minimum-premium floor. -/
theorem premium_monotone_in_strike (s1 s2 d p : Nat) (h12 : s1 ≤ s2)
    (h2 : s2 ≤ 100) (hd1 : 1 ≤ d) (hd : d ≤ 365) (hp : 0 < p) :
    calculatePremium s2 d p ≤ calculatePremium s1 d p := by
  simp only [calculatePremium, MIN_PREMIUM]
  have hrisk : (100 - s2) * 100 ≤ (100 - s1) * 100 := by omega
  have hnum : p * ((100 - s2) * 100) * d ≤ p * ((100 - s1) * 100) * d :=
    Nat.mul_le_mul (Nat.mul_le_mul (le_refl p) hrisk) (le_refl d)
  have hdiv : p * ((100 - s2) * 100) * d / 1000000 ≤
      p * ((100 - s1) * 100) * d / 1000000 :=
    Nat.div_le_div_right hnum
  split_ifs <;> omega

/-- C7 witness: the monotonicity bound at strikes 50 and 80 for a concrete
duration and payout. -/
theorem premium_monotone_in_strike_witness :
    calculatePremium 80 10 2000000 ≤ calculatePremium 50 10 2000000 :=
  premium_monotone_in_strike 50 80 10 2000000 (by decide) (by decide) (by decide)
    (by decide) (by decide)

/-- C8: `isClaimable` is a pure function of the state (no mutation), returns
`(true, "")` exactly when the claim-eligibility conditions — the policy
exists, is unclaimed, is unexpired, and the subject's score is strictly below
the strike — all hold, and returns a nonempty reason string whenever it
returns `false`.  The hypothesis that the stored policy's subject is
registered holds in every reachable state (`SysInv.policy_registered`). -/
theorem isClaimable_matches_claim_checks (s : SystemState) (pid : Nat)
    (hreg : (s.engine.policies pid).exists_ = true →
      s.oracle.isProtocolRegistered (s.engine.policies pid).protocol = true) :
    (isClaimable s pid = .ok (true, "") ↔
      ((s.engine.policies pid).exists_ = true ∧
       (s.engine.policies pid).claimed = false ∧
       s.time < (s.engine.policies pid).expiry ∧
       s.oracle.safetyScores (s.engine.policies pid).protocol <
         (s.engine.policies pid).strikeScore)) ∧
    (∀ r, isClaimable s pid = .ok (false, r) → r ≠ "") := by
  cases hex : (s.engine.policies pid).exists_ with
  | false =>
    have hval : isClaimable s pid = .ok (false, "Policy does not exist") := by
      simp [isClaimable, hex]
    refine ⟨⟨?_, ?_⟩, ?_⟩
    · intro h
      rw [hval] at h
      simp at h
    · rintro ⟨h1, -, -, -⟩
      exact Bool.noConfusion h1
    · intro r hr
      rw [hval] at hr
      injection hr with hr
      injection hr with hr1 hr2
      subst hr2
      decide
  | true =>
    cases hcl : (s.engine.policies pid).claimed with
    | true =>
      have hval : isClaimable s pid = .ok (false, "Policy already claimed") := by
        simp [isClaimable, hex, hcl]
      refine ⟨⟨?_, ?_⟩, ?_⟩
      · intro h
        rw [hval] at h
        simp at h
      · rintro ⟨-, h2, -, -⟩
        exact Bool.noConfusion h2
      · intro r hr
        rw [hval] at hr
        injection hr with hr
        injection hr with hr1 hr2
        subst hr2
        decide
    | false =>
      have hgs : getScore s.oracle (s.engine.policies pid).protocol =
          .ok (s.oracle.safetyScores (s.engine.policies pid).protocol) := by
        unfold getScore
        rw [if_pos (hreg hex)]
      by_cases hexp : (s.engine.policies pid).expiry ≤ s.time
      · have hval : isClaimable s pid = .ok (false, "Policy expired") := by
          simp [isClaimable, hex, hcl, hexp]
        refine ⟨⟨?_, ?_⟩, ?_⟩
        · intro h
          rw [hval] at h
          simp at h
        · rintro ⟨-, -, h3, -⟩
          exact absurd hexp (Nat.not_le.mpr h3)
        · intro r hr
          rw [hval] at hr
          injection hr with hr
          injection hr with hr1 hr2
          subst hr2
          decide
      · by_cases hsc : (s.engine.policies pid).strikeScore ≤
            s.oracle.safetyScores (s.engine.policies pid).protocol
        · have hval : isClaimable s pid = .ok (false, "Strike not breached") := by
            simp [isClaimable, hex, hcl, hexp, hgs, hsc]
          refine ⟨⟨?_, ?_⟩, ?_⟩
          · intro h
            rw [hval] at h
            simp at h
          · rintro ⟨-, -, -, h4⟩
            exact absurd hsc (Nat.not_le.mpr h4)
          · intro r hr
            rw [hval] at hr
            injection hr with hr
            injection hr with hr1 hr2
            subst hr2
            decide
        · have hval : isClaimable s pid = .ok (true, "") := by
            simp [isClaimable, hex, hcl, hexp, hgs, hsc]
          refine ⟨⟨?_, ?_⟩, ?_⟩
          · intro _
            exact ⟨rfl, rfl, Nat.not_le.mp hexp, Nat.not_le.mp hsc⟩
          · intro _
            exact hval
          · intro r hr
            rw [hval] at hr
            injection hr with hr
            injection hr with hr1 hr2
            exact Bool.noConfusion hr1

/-- C8 witness: the equivalence applied at the concrete eligible scenario
state, where all four checks hold and `isClaimable` answers `(true, "")`. -/
theorem isClaimable_matches_claim_checks_witness :
    isClaimable c4sLt 0 = .ok (true, "") :=
  (isClaimable_matches_claim_checks c4sLt 0 (fun _ => rfl)).1.mpr
    ⟨rfl, rfl, by decide, by decide⟩

/-- C9: a successful `updateScoreWithProof` stores the journal's embedded
timestamp as `lastUpdateTime` unconditionally — no monotonicity against the
previously stored attestation timestamp is required — and concretely, a second
accepted submission carrying journal timestamp 50 overwrites the fresher
stored timestamp 100. -/
theorem attestation_timestamp_unconditional :
    (∀ (verify : Verifier) (s : OracleState) (protocol : Nat)
        (journal sealBytes : List Nat) (s2 : OracleState),
      (updateScoreWithProof verify s protocol journal sealBytes).1 = .ok s2 →
      (s2.protocolMetrics protocol).lastUpdateTime = readUint64LE journal 40) ∧
    ((updateScoreWithProof acceptAll c9Oracle 7 (journalBytes 9000 5 6 100) []).1 =
        .ok c9o1 ∧
      (c9o1.protocolMetrics 7).lastUpdateTime = 100 ∧
      (updateScoreWithProof acceptAll c9o1 7 (journalBytes 5000 4 3 50) []).1 =
        .ok c9o2 ∧
      (c9o2.protocolMetrics 7).lastUpdateTime = 50) := by
  constructor
  · intro verify s protocol journal sealBytes s2 h
    simp only [updateScoreWithProof] at h
    split_ifs at h with h1 h2 h3 h4 h5 h6 <;>
    · injection h with h
      subst h
      simp
  · exact ⟨rfl, by decide, rfl, by decide⟩

/-- C9 witness: the unconditional-store statement applied at the first
accepted concrete submission. -/
theorem attestation_timestamp_unconditional_witness :
    (c9o1.protocolMetrics 7).lastUpdateTime =
      readUint64LE (journalBytes 9000 5 6 100) 40 :=
  attestation_timestamp_unconditional.1 acceptAll c9Oracle 7
    (journalBytes 9000 5 6 100) [] c9o1 rfl

/-- C10: a successful manual `updateScore` overwrites the attestation metadata
field `lastUpdateTime` with the current block timestamp (`uint64`-truncated),
while leaving `totalAssets`, `totalLiabilities` and the ZK verification
counter unchanged, and stores the new score. -/
theorem updateScore_overwrites_attestation_metadata
    (s : OracleState) (time protocol newScore : Nat) (s2 : OracleState)
    (h : updateScore s true time protocol newScore = .ok s2) :
    (s2.protocolMetrics protocol).lastUpdateTime = time % 2 ^ 64 ∧
    (s2.protocolMetrics protocol).totalAssets =
      (s.protocolMetrics protocol).totalAssets ∧
    (s2.protocolMetrics protocol).totalLiabilities =
      (s.protocolMetrics protocol).totalLiabilities ∧
    (s2.protocolMetrics protocol).zkVerificationCount =
      (s.protocolMetrics protocol).zkVerificationCount ∧
    s2.safetyScores protocol = newScore := by
  unfold updateScore at h
  split_ifs at h with h1 h2 h3
  injection h with h
  subst h
  refine ⟨?_, ?_, ?_, ?_, ?_⟩ <;> simp

/-- C10 witness: the frame conditions of a concrete manual update at
timestamp 1234 on the configured oracle. -/
theorem updateScore_overwrites_attestation_metadata_witness :
    (c10After.protocolMetrics 7).lastUpdateTime = 1234 % 2 ^ 64 ∧
    (c10After.protocolMetrics 7).totalAssets =
      (c9Oracle.protocolMetrics 7).totalAssets ∧
    (c10After.protocolMetrics 7).totalLiabilities =
      (c9Oracle.protocolMetrics 7).totalLiabilities ∧
    (c10After.protocolMetrics 7).zkVerificationCount =
      (c9Oracle.protocolMetrics 7).zkVerificationCount ∧
    c10After.safetyScores 7 = 60 :=
  updateScore_overwrites_attestation_metadata c9Oracle 1234 7 60 c10After rfl

end Equinox
